import Mathlib

/-!
Verification of the ghafscan flake-vulnerability scan orchestrator
(`src/ghafscan/main.py`).

The development shallowly embeds the orchestration pipeline: the command
runner (`exec_cmd`), the csv tabular store (`df_to_csv_file` /
`df_from_csv_file`, modelled at the level of file content as character
lists), the pin-state controller (`_reset_lock`, `_update_repo_lock`
including the `nixpkgs.url` regex rewrite of `re.sub`), the scan executor
(`_evaluate_target_drv` / `_read_scan_results`), the differential
aggregator (`_diff_scans` / `_csvdiff`), and the report renderer
(`_report_target`, `_df_to_report_tbl`, `_read_error` and the row
reformatting helpers).

External collaborators (the `csvdiff` set-difference tool, the `nix flake
lock` lock update, the `tabulate` markdown table formatter, and the two
URL-to-markdown-hyperlink regex substitutions) are not part of the
repository source; they are modelled from the spec's contracts, either as
explicit definitions marked `Modelled from the spec` or as abstract
function parameters that the theorems quantify over.
-/

/-! ## Command runner (`exec_cmd`, main.py:125-149) -/

/-- Result of a completed subprocess (`subprocess.run` return value). -/
structure CompletedProcess where
  returncode : Int
  stdout : String
  stderr : String
deriving DecidableEq, Repr

/-- `subprocess.CalledProcessError`: the structured failure raised on
non-zero exit, carrying captured stdout and stderr. -/
structure CalledProcessError where
  returncode : Int
  stdout : String
  stderr : String
deriving DecidableEq, Repr

/-- Outcome of spawning the external command: either it completes with
exit status zero, or `subprocess.run(..., check=True)` signals a
`CalledProcessError`. -/
inductive CmdOutcome where
  | success (r : CompletedProcess)
  | failure (e : CalledProcessError)
deriving DecidableEq, Repr

/-- What `exec_cmd` hands back to its caller when it does not raise:
the completed result, the error object, or Python `None`. -/
inductive ExecResult where
  | ret (r : CompletedProcess)
  | err (e : CalledProcessError)
  | noResult
deriving DecidableEq, Repr

/-- `exec_cmd` (main.py:125-149): runs the command; on
`CalledProcessError` it re-raises when `raise_on_error` (the default),
returns the error object when `return_error`, and otherwise returns
`None`.  Raising is modelled as `Except.error`. -/
def exec_cmd (outcome : CmdOutcome) (raise_on_error : Bool := true)
    (return_error : Bool := false) : Except CalledProcessError ExecResult :=
  match outcome with
  | .success r => .ok (.ret r)
  | .failure e =>
    if raise_on_error then .error e
    else if return_error then .ok (.err e)
    else .ok .noResult

/-! ## Tabular store (`df_from_csv_file` / `df_to_csv_file`,
main.py:152-172)

`df_to_csv_file` writes with `quoting=csv.QUOTE_ALL`, so every field is
double-quoted with inner quotes doubled, fields are comma separated and
each record ends with a newline.  `df_from_csv_file` reads with
`keep_default_na=False, dtype=str`, so every value comes back as text and
an empty field stays the empty string.  Both are modelled on the file
content, as lists of characters. -/

/-- Double every `"` inside a field, as the csv writer's QUOTE_ALL
escaping does. -/
def escapeField : List Char → List Char
  | [] => []
  | c :: cs => if c = '"' then '"' :: '"' :: escapeField cs else c :: escapeField cs

/-- One fully quoted csv field. -/
def writeField (f : List Char) : List Char :=
  '"' :: (escapeField f ++ ['"'])

/-- One csv record: quoted fields joined with commas. -/
def writeRecord : List (List Char) → List Char
  | [] => []
  | f :: fs =>
    match fs with
    | [] => writeField f
    | _ :: _ => writeField f ++ ',' :: writeRecord fs

/-- A whole csv file: records each terminated by a newline. -/
def writeCSV : List (List (List Char)) → List Char
  | [] => []
  | r :: rs => writeRecord r ++ '\n' :: writeCSV rs

/-- An in-memory dataframe as the csv layer sees it: a header record of
column names followed by all-text rows. -/
structure CsvTable where
  header : List (List Char)
  rows : List (List (List Char))
deriving DecidableEq, Repr

/-- `df_to_csv_file` (main.py:167-172) restricted to the file content it
produces: header record first, then the data rows, all fields quoted. -/
def df_to_csv_file (t : CsvTable) : List Char :=
  writeCSV (t.header :: t.rows)

/-- Parse one quoted field after its opening quote: `""` is an escaped
quote, a lone `"` closes the field.  Returns the field and the input
following the closing quote. -/
def parseQuoted (acc : List Char) : List Char → Option (List Char × List Char)
  | [] => none
  | c :: rest =>
    if c = '"' then
      match rest with
      | [] => some (acc, rest)
      | c2 :: rest2 =>
        if c2 = '"' then parseQuoted (acc ++ ['"']) rest2 else some (acc, rest)
    else parseQuoted (acc ++ [c]) rest

/-- Fueled record list parser: a record is quoted fields separated by
commas; records are separated by newlines; a trailing newline or end of
input ends the file.  One unit of fuel is spent per field, so any fuel
above the input length is enough. -/
def parseRecsF : Nat → List Char → Option (List (List (List Char)))
  | 0, _ => none
  | fuel + 1, input =>
    match input with
    | [] => none
    | c :: r =>
      if c = '"' then
        match parseQuoted [] r with
        | some (f, rest) =>
          match rest with
          | [] => some [[f]]
          | c2 :: r2 =>
            if c2 = ',' then
              match parseRecsF fuel r2 with
              | some (rec1 :: recs) => some ((f :: rec1) :: recs)
              | _ => none
            else if c2 = '\n' then
              match r2 with
              | [] => some [[f]]
              | _ :: _ =>
                match parseRecsF fuel r2 with
                | some recs => some ([f] :: recs)
                | none => none
            else none
        | none => none
      else none

/-- Parse a whole all-quoted csv file into its records. -/
def parseRecs (input : List Char) : Option (List (List (List Char))) :=
  parseRecsF (input.length + 1) input

/-- `df_from_csv_file` (main.py:152-164) restricted to well-formed
content: the first record is the header, the rest are rows; values all
stay text and empty fields stay empty strings.  A file that does not
parse is the error case (`None`). -/
def df_from_csv_file (s : List Char) : Option CsvTable :=
  match parseRecs s with
  | some (h :: rs) => some ⟨h, rs⟩
  | _ => none

/-- A well-formed non-empty table: at least one column, and every row has
exactly one value per column. -/
def csvWellFormed (t : CsvTable) : Prop :=
  t.header ≠ [] ∧ ∀ r ∈ t.rows, r.length = t.header.length

instance (t : CsvTable) : Decidable (csvWellFormed t) := by
  unfold csvWellFormed; infer_instance

/-! ## The `nixpkgs.url` rewrite (`_update_repo_lock`, main.py:490-508)

The source runs `re.sub(r"(nixpkgs\.url *= *)[^;]+", rf'\1"{url}"',
text)`: at each match, the literal `nixpkgs.url`, then any spaces, `=`,
any spaces (the group), then a maximal non-empty run of non-semicolon
characters, replaced by the group followed by the quoted url.  The model
below implements exactly this left-to-right global substitution. -/

/-- The literal part of the pattern. -/
def litNix : List Char := "nixpkgs.url".data

/-- The character class of `  *` in the pattern. -/
def isSpace (c : Char) : Bool := c = ' '

/-- The character class of `[^;]` in the pattern. -/
def notSemi (c : Char) : Bool := c ≠ ';'

/-- Strip an expected literal from the front of the input. -/
def dropLit : List Char → List Char → Option (List Char)
  | [], l => some l
  | _ :: _, [] => none
  | c :: cs, x :: xs => if c = x then dropLit cs xs else none

/-- Try the pattern `(nixpkgs\.url *= *)[^;]+` at the head of the input.
On success, return the matched group `nixpkgs\.url *= *` and the input
after the whole match.  The match consumes the literal, spaces, `=`, and
then the maximal non-empty run of non-semicolon characters, so the
remainder is empty or starts with `;`.  Within the consumed run after
`=`, the group's trailing ` *` greedily takes the spaces but backtracks
to leave at least one character to `[^;]+`: when everything before the
`;` is spaces, the last space belongs to the value, not to the group. -/
def tryMatch (l : List Char) : Option (List Char × List Char) :=
  match dropLit litNix l with
  | none => none
  | some r0 =>
    match r0.dropWhile isSpace with
    | [] => none
    | c1 :: r2 =>
      if c1 = '=' then
        if r2.takeWhile notSemi = [] then none
        else
          some (litNix ++ r0.takeWhile isSpace ++ '=' ::
              (if (r2.takeWhile notSemi).dropWhile isSpace = []
               then (r2.takeWhile notSemi).dropLast
               else (r2.takeWhile notSemi).takeWhile isSpace),
            r2.dropWhile notSemi)
      else none

/-- Fueled global substitution: scan left to right, at each position
either rewrite a match to the group followed by `"url"` and resume after
the match, or emit the character.  One unit of fuel per step, so fuel
equal to the input length is enough. -/
def reSubF (url : List Char) : Nat → List Char → List Char
  | 0, l => l
  | _ + 1, [] => []
  | fuel + 1, c :: rest =>
    match tryMatch (c :: rest) with
    | some (g, after) => g ++ '"' :: (url ++ '"' :: reSubF url fuel after)
    | none => c :: reSubF url fuel rest

/-- `re.sub(r"(nixpkgs\.url *= *)[^;]+", rf'\1"{url}"', text)` on
character lists. -/
def re_sub_nixpkgs_url (url text : List Char) : List Char :=
  reSubF url text.length text

/-- The flake.nix channel-reference rewrite of `_update_repo_lock`
(main.py:494-500), on strings. -/
def update_flake_url (url text : String) : String :=
  ⟨re_sub_nixpkgs_url url.data text.data⟩

/-- The two managed files of the working checkout and their baseline
backups taken at initialization, as file contents. -/
structure FlakeFiles where
  lockfile : String
  flakefile : String
  lockfile_bak : String
  flakefile_bak : String
deriving DecidableEq, Repr

/-- `_reset_lock` (main.py:469-472): copy both backed-up files over the
live ones. -/
def reset_lock (s : FlakeFiles) : FlakeFiles :=
  { s with lockfile := s.lockfile_bak, flakefile := s.flakefile_bak }

/-- `_update_repo_lock` (main.py:490-514): optionally rewrite the
`nixpkgs.url` reference in flake.nix, then run the external lock update.
The external `nix flake lock --update-input nixpkgs` is modelled as an
abstract function `nixLock` from the current flake.nix and flake.lock
contents to the new flake.lock content. -/
def update_repo_lock (nixLock : String → String → String)
    (nixpkgs_url : Option String) (s : FlakeFiles) : FlakeFiles :=
  let s1 :=
    match nixpkgs_url with
    | some url => { s with flakefile := update_flake_url url s.flakefile }
    | none => s
  { s1 with lockfile := nixLock s1.flakefile s1.lockfile }

/-- The unstable channel reference used by the third scan
(main.py:282). -/
def unstableUrl : String := "github:NixOS/nixpkgs/nixos-unstable"

/-- The file states in which `scan_target` (main.py:254-284) starts each
of its three scans: reset; reset then pinned-channel lock update; reset
then unstable rewrite and lock update.  Each transition resets before
mutating. -/
def scan_target_prestates (nixLock : String → String → String)
    (s : FlakeFiles) : List FlakeFiles :=
  let s1 := reset_lock s
  let s2 := update_repo_lock nixLock none (reset_lock s1)
  let s3 := update_repo_lock nixLock (some unstableUrl) (reset_lock s2)
  [s1, s2, s3]

/-! ## Scan findings and the run accumulator -/

/-- One row of the run accumulator (`self.df_scan`): the three columns
prepended by `_read_scan_results` followed by the scanner's triage
columns, all text. -/
structure Row where
  target : String
  flakeref : String
  pintype : String
  vuln_id : String
  package : String
  severity : String
  sortcol : String
  version_local : String
  version_nixpkgs : String
  version_upstream : String
  whitelist : String
  whitelist_comment : String
  nixpkgs_pr : String
  url : String
deriving DecidableEq, Repr

/-- One row of the scanner's triage csv, before the target, flakeref and
pintype columns are prepended. -/
structure RawRow where
  vuln_id : String
  package : String
  severity : String
  sortcol : String
  version_local : String
  version_nixpkgs : String
  version_upstream : String
  whitelist : String
  whitelist_comment : String
  nixpkgs_pr : String
  url : String
deriving DecidableEq, Repr

/-- `df.insert(0, ...)` for the three tag columns (main.py:532-535). -/
def tagRow (target flakeref pintype : String) (r : RawRow) : Row :=
  { target := target, flakeref := flakeref, pintype := pintype
    vuln_id := r.vuln_id, package := r.package, severity := r.severity
    sortcol := r.sortcol, version_local := r.version_local
    version_nixpkgs := r.version_nixpkgs, version_upstream := r.version_upstream
    whitelist := r.whitelist, whitelist_comment := r.whitelist_comment
    nixpkgs_pr := r.nixpkgs_pr, url := r.url }

/-- Which optional columns the dataframe carries; mirrors the
`"<name>" in df.columns` checks of the renderer.  `hasSortCols` is the
`set(sort_cols).issubset(df.columns)` check of `_df_to_report_tbl`. -/
structure Cols where
  hasWhitelist : Bool
  hasWhitelistComment : Bool
  hasNixpkgsPr : Bool
  hasVersionNixpkgs : Bool
  hasVersionUpstream : Bool
  hasSortCols : Bool
deriving DecidableEq, Repr

/-- External text formatters the renderer delegates to, abstracted as
function parameters: the two `re.sub` url-to-markdown-hyperlink
rewrites of `_reformat_comment` and `_reformat_pr_search`, and the
`tabulate(..., tablefmt="github")` markdown table layout. -/
structure Fmt where
  linkC : String → String
  linkPR : String → String
  tab : List String → List (List String) → String

/-! ## Error records (`_evaluate_target_drv`, `_read_error`,
main.py:461-467, 474-488) -/

/-- The error dictionary `self.errors`, keyed by `{target}_{pintype}`;
insertion prepends, lookup takes the first binding. -/
abbrev Errors := List (String × String)

/-- The error-record key `f"{target}_{pintype}"`. -/
def errKey (target pintype : String) : String :=
  target ++ "_" ++ pintype

/-- The markdown error message recorded by `_evaluate_target_drv`
(main.py:481-484). -/
def errMsg (target pintype : String) : String :=
  "```Error evaluating '" ++ target ++ "' on " ++ pintype ++
    "```<br /><br />\nFor more details, see: https://github.com/tiiuae/ghafscan/actions"

/-- `_read_error` (main.py:461-467): return the message of the first
pintype in the given list that has an error record, else `None`. -/
def read_error (errors : Errors) (target : String) : List String → Option String
  | [] => none
  | p :: ps =>
    match errors.lookup (errKey target p) with
    | some m => some m
    | none => read_error errors target ps

/-- Python's `a if a else b` on an optional string: `None` and the empty
string both fall through to the alternative. -/
def pyOr (o : Option String) (alt : String) : String :=
  match o with
  | some s => if s = "" then alt else s
  | none => alt

/-! ## Scan executor (`_read_scan_results`, main.py:516-536) -/

/-- The observable outcome of one scan attempt: the evaluator call of
`_evaluate_target_drv` fails (`None` return or non-zero exit); or it
succeeds but the triage csv is missing or unparsable; or the triage csv
parses into rows. -/
inductive ScanOutcome where
  | evalFail
  | noTriageOutput
  | triageRows (rows : List RawRow)

/-- The scanner state threaded through a run: the accumulating
`self.df_scan` and the error dictionary `self.errors`. -/
structure ScanState where
  df_scan : List Row
  errors : Errors
deriving DecidableEq, Repr

/-- `_read_scan_results` (main.py:516-536) together with the error
recording of `_evaluate_target_drv` (main.py:479-485): on evaluation
failure record the error keyed `{target}_{pintype}` and contribute
nothing; on missing/unparsable triage output contribute nothing; on
success tag each row with target, flakeref and pintype and append to the
accumulator. -/
def read_scan_results (outcome : ScanOutcome) (flakeref target pintype : String)
    (s : ScanState) : ScanState :=
  match outcome with
  | .evalFail =>
    { s with errors := (errKey target pintype, errMsg target pintype) :: s.errors }
  | .noTriageOutput => s
  | .triageRows rows =>
    { s with df_scan := s.df_scan ++ rows.map (tagRow target flakeref pintype) }

/-! ## Differential aggregator (`_diff_scans` / `_csvdiff`,
main.py:387-420) -/

/-- Does some row of `l` share the `(vuln_id, package)` composite key
with `r`? -/
def keyMem (r : Row) (l : List Row) : Bool :=
  l.any (fun q => q.vuln_id == r.vuln_id && q.package == r.package)

/-- Is `pat` a prefix of `s`? -/
def leadsWith : List Char → List Char → Bool
  | [], _ => true
  | _ :: _, [] => false
  | p :: ps, c :: cs => p == c && leadsWith ps cs

/-- Substring test, for the `df["diff"].str.contains("left_only")`
filter. -/
def hasSub (pat : List Char) : List Char → Bool
  | [] => leadsWith pat []
  | c :: cs => leadsWith pat (c :: cs) || hasSub pat cs

/-- Modelled from the spec: the external `csvdiff` set-difference tool is
not part of this repository; per the spec it compares two tables by the
composite key columns and emits the rows unique to one side, with a
`diff` column marking the side (`left_only` rows are those present only
in the left table). -/
def csvdiff (left right : List Row) : List (Row × String) :=
  (left.filter (fun r => !keyMem r right)).map (fun r => (r, "left_only"))
    ++ (right.filter (fun r => !keyMem r left)).map (fun r => (r, "right_only"))

/-- `_csvdiff` (main.py:397-420): run the external tool on the two
written tables keyed on `vuln_id,package` and keep only the rows whose
`diff` column contains `left_only`. -/
def csvdiff_left_only (left right : List Row) : List Row :=
  ((csvdiff left right).filter (fun rd => hasSub "left_only".data rd.2.data)).map (·.1)

/-- `_diff_scans` (main.py:387-395): write the two single-pin-state
subsets of the same findings table and diff them. -/
def diff_scans (df : List Row) (left_pin right_pin : String) : List Row :=
  csvdiff_left_only (df.filter (fun r => r.pintype == left_pin))
    (df.filter (fun r => r.pintype == right_pin))

/-! ## Report renderer (`_report_target` / `_df_to_report_tbl` and
helpers, main.py:313-459, 544-574) -/

/-- `df["version_local"].str.slice(0, 16)` and friends. -/
def truncate16 (s : String) : String := s.take 16

/-- `_reformat_vuln_id` (main.py:544-548): empty when either the id or
the url is missing, otherwise a markdown hyperlink. -/
def reformat_vuln_id (r : Row) : String :=
  if r.vuln_id = "" ∨ r.url = "" then ""
  else "[" ++ r.vuln_id ++ "](" ++ r.url ++ ")"

/-- `_reformat_comment` (main.py:551-558): empty without a
`whitelist_comment` column or value, otherwise the comment with its urls
turned into `[link](...)` hyperlinks (the regex rewrite is the abstract
`Fmt.linkC`). -/
def reformat_comment (fmt : Fmt) (cols : Cols) (r : Row) : String :=
  if !cols.hasWhitelistComment || r.whitelist_comment == "" then ""
  else fmt.linkC r.whitelist_comment

/-- Split into maximal runs of non-whitespace, accumulating the current
word reversed. -/
def wordsOfAux (cur : List Char) : List Char → List (List Char)
  | [] => if cur = [] then [] else [cur.reverse]
  | c :: cs =>
    if c.isWhitespace then
      if cur = [] then wordsOfAux [] cs else cur.reverse :: wordsOfAux [] cs
    else wordsOfAux (c :: cur) cs

/-- Python's `" ".join(s.split())`: collapse whitespace runs to single
spaces and trim. -/
def normSpaces (s : String) : String :=
  String.intercalate " " ((wordsOfAux [] s.data).map (fun w => ⟨w⟩))

/-- `_reformat_pr_search` (main.py:561-574), given the already-computed
comment cell: without a `nixpkgs_pr` value keep the comment; otherwise
turn the PR urls into `[PR](...)` links (abstract `Fmt.linkPR`),
normalize whitespace, wrap as ` *[..., ...]*` and append after the
comment when one is present. -/
def reformat_pr_search (fmt : Fmt) (r : Row) (comment : String) : String :=
  if r.nixpkgs_pr == "" then comment
  else
    let pr1 := normSpaces (fmt.linkPR r.nixpkgs_pr)
    let pr2 :=
      if pr1 == "" then pr1
      else " *[" ++ String.intercalate ", " (pr1.splitOn " ") ++ "]*"
    if comment == "" then pr2 else comment ++ " " ++ pr2

/-- The cells of one rendered report row, in the column order of
`report_cols` (main.py:434-453): hyperlinked vuln id, package, severity,
truncated local version, the optional truncated upstream versions, and
the folded comment cell. -/
def projectRow (fmt : Fmt) (cols : Cols) (up_ver : Bool) (r : Row) : List String :=
  let comment0 := reformat_comment fmt cols r
  let comment :=
    if cols.hasNixpkgsPr then reformat_pr_search fmt r comment0 else comment0
  [reformat_vuln_id r, r.package, r.severity, truncate16 r.version_local]
    ++ (if up_ver && cols.hasVersionNixpkgs then [truncate16 r.version_nixpkgs] else [])
    ++ (if up_ver && cols.hasVersionUpstream then [truncate16 r.version_upstream] else [])
    ++ [comment]

/-- The rendered header cells, matching `projectRow`. -/
def headerNames (cols : Cols) (up_ver : Bool) : List String :=
  ["vuln_id", "package", "severity", "version_local"]
    ++ (if up_ver && cols.hasVersionNixpkgs then ["nix_unstable"] else [])
    ++ (if up_ver && cols.hasVersionUpstream then ["upstream"] else [])
    ++ ["comment"]

/-- The `sort_values` key columns (main.py:427), in order. -/
def sortKey (r : Row) : List String :=
  [r.severity, r.sortcol, r.package, r.version_local, r.vuln_id]

/-- Lexicographic greater-or-equal on the key columns: the table is
sorted descending. -/
def lexGe : List String → List String → Bool
  | [], _ => true
  | _ :: _, [] => true
  | a :: as, b :: bs => if a = b then lexGe as bs else decide (b < a)

/-- Insert into a sorted list, keeping the comparator order. -/
def insertSorted (le : Row → Row → Bool) (x : Row) : List Row → List Row
  | [] => [x]
  | y :: ys => if le x y then x :: y :: ys else y :: insertSorted le x ys

/-- `df.sort_values(by=sort_cols, ascending=False)` (main.py:430) as an
insertion sort by the descending lexicographic key. -/
def sortRows (rows : List Row) : List Row :=
  rows.foldr (insertSorted (fun a b => lexGe (sortKey a) (sortKey b))) []

/-- Fueled first-occurrence deduplication
(`df.drop_duplicates(keep="first")`, main.py:454). -/
def dedupKeepFirstF : Nat → List (List String) → List (List String)
  | 0, l => l
  | _ + 1, [] => []
  | n + 1, x :: xs => x :: dedupKeepFirstF n (xs.filter (fun y => !(y == x)))

/-- First-occurrence deduplication of the projected rows. -/
def dedupKeepFirst (l : List (List String)) : List (List String) :=
  dedupKeepFirstF l.length l

/-- The cell rows of a rendered findings table: sort, project to the
report columns, drop duplicates. -/
def reportRows (fmt : Fmt) (cols : Cols) (up_ver : Bool) (rows : List Row) :
    List (List String) :=
  dedupKeepFirst ((sortRows rows).map (projectRow fmt cols up_ver))

/-- `_df_to_report_tbl` (main.py:422-459): an empty table renders as the
no-vulnerabilities placeholder; missing sort columns render as an error
note; otherwise the tabulated markdown wrapped in newlines. -/
def df_to_report_tbl (fmt : Fmt) (cols : Cols) (up_ver : Bool)
    (rows : List Row) : String :=
  if rows.isEmpty then "```No vulnerabilities```"
  else if cols.hasSortCols then
    "\n" ++ fmt.tab (headerNames cols up_ver) (reportRows fmt cols up_ver rows) ++ "\n"
  else "\n```Error: missing required columns```\n"

/-- The target/flakeref selection with whitelist filtering of
`_report_target` (main.py:322-324 for the live accumulator, 327-329 for
the previous run's table). -/
def filterTargetRows (cols : Cols) (rows : List Row) (flakeref target : String) :
    List Row :=
  let d := rows.filter (fun r => r.target == target && r.flakeref == flakeref)
  if cols.hasWhitelist then d.filter (fun r => r.whitelist == "False") else d

/-- The rows feeding the CURRENT_VULNS table of a target report. -/
def currentVulnsRows (cols : Cols) (rows : List Row) (flakeref target : String) :
    List Row :=
  (filterTargetRows cols rows flakeref target).filter (fun r => r.pintype == "current")

/-- One report section: the first matching error record takes the place
of the table (with Python's truthiness, so an empty message would fall
through). -/
def sectionText (errors : Errors) (target : String) (pintypes : List String)
    (tbl : String) : String :=
  pyOr (read_error errors target pintypes) tbl

/-- The ONLY_WHITELISTED section (main.py:375-382): built from the whole
accumulator, keeping the rows whose whitelist field is not `"False"`, no
upstream version columns; without a whitelist column a fixed
placeholder. -/
def wl_section (fmt : Fmt) (cols : Cols) (df_scan : List Row) : String :=
  if cols.hasWhitelist then
    df_to_report_tbl fmt cols false (df_scan.filter (fun r => !(r.whitelist == "False")))
  else "```No whitelisted vulnerabilities```"

/-- Modelled from the spec: the report template `templates/ghaf_target.md`
is a repository data file not present under `src/`; per the spec the
renderer substitutes named markers with section texts, so a rendered
target report is modelled as the map from marker to substituted
section. -/
structure Report where
  fixed_in_nixpkgs : String
  fixed_in_nix_unstable : String
  new_since_last_run : String
  current_vulns : String
  only_whitelisted : String
deriving DecidableEq, Repr

/-- `_report_target` (main.py:313-385): the five substituted sections of
one target report.  `ref?` is the previous run's persisted table with
its own columns, when `data.csv` existed. -/
def report_target (fmt : Fmt) (cols : Cols) (errors : Errors)
    (df_scan : List Row) (ref? : Option (Cols × List Row))
    (flakeref target : String) : Report :=
  let df_target := filterTargetRows cols df_scan flakeref target
  let ref_filtered : Option (List Row) :=
    ref?.map (fun rc => filterTargetRows rc.1 rc.2 flakeref target)
  { fixed_in_nixpkgs :=
      sectionText errors target ["current", "lock_updated"]
        (df_to_report_tbl fmt cols true (diff_scans df_target "current" "lock_updated"))
    fixed_in_nix_unstable :=
      sectionText errors target ["lock_updated", "nix_unstable"]
        (df_to_report_tbl fmt cols true (diff_scans df_target "lock_updated" "nix_unstable"))
    new_since_last_run :=
      match ref_filtered with
      | none => sectionText errors target ["current"] (df_to_report_tbl fmt cols true [])
      | some refRows =>
        if refRows.isEmpty then
          sectionText errors target ["current"] (df_to_report_tbl fmt cols true [])
        else
          sectionText errors target ["current"]
            (df_to_report_tbl fmt cols true
              (csvdiff_left_only (df_target.filter (fun r => r.pintype == "current"))
                (refRows.filter (fun r => r.pintype == "current"))))
    current_vulns :=
      sectionText errors target ["current"]
        (df_to_report_tbl fmt cols true (currentVulnsRows cols df_scan flakeref target))
    only_whitelisted := wl_section fmt cols df_scan }

/-! ## Concrete instances used by witnesses and counterexamples -/

/-- A trivial formatter instance for closed evaluations. -/
def fmt0 : Fmt :=
  { linkC := fun s => s, linkPR := fun s => s, tab := fun _ _ => "" }

/-- A columns instance with no optional columns. -/
def cols0 : Cols :=
  { hasWhitelist := false, hasWhitelistComment := false, hasNixpkgsPr := false
    hasVersionNixpkgs := false, hasVersionUpstream := false, hasSortCols := false }

/-- A columns instance with every optional column present. -/
def cols1 : Cols :=
  { hasWhitelist := true, hasWhitelistComment := true, hasNixpkgsPr := true
    hasVersionNixpkgs := true, hasVersionUpstream := true, hasSortCols := true }

/-- A sample accumulator row for witnesses. -/
def row1 : Row :=
  { target := "pkg.t1", flakeref := "github:org/repo", pintype := "current"
    vuln_id := "CVE-2023-0001", package := "libfoo", severity := "9.8"
    sortcol := "1", version_local := "1.2.3", version_nixpkgs := "1.2.4"
    version_upstream := "1.3.0", whitelist := "True"
    whitelist_comment := "accepted", nixpkgs_pr := "", url := "https://nvd.example/cve1" }


/-- A run in which evaluation fails for the same target on both
`lock_updated` and `nix_unstable`. -/
def cexState : ScanState :=
  read_scan_results .evalFail "fr" "tgt" "nix_unstable"
    (read_scan_results .evalFail "fr" "tgt" "lock_updated" ⟨[], []⟩)

/-- The rendered report of that run. -/
def cexReport : Report :=
  report_target fmt0 cols0 cexState.errors cexState.df_scan none "fr" "tgt"

/-! # Theorems -/

/-! ## C8: the command-runner contract -/

/-- **C8**: an invocation that exits non-zero by default raises the
structured failure carrying the captured stdout and stderr; with
non-fatal handling requested (`raise_on_error=False, return_error=True`)
the failure object is returned instead of raised; with the error
swallowed (`raise_on_error=False, return_error=False`) an empty result
(`None`) is returned; a successful invocation returns the completed
result with its captured output, regardless of the flags. -/
theorem exec_cmd_contract (e : CalledProcessError) (r : CompletedProcess)
    (b c : Bool) :
    exec_cmd (.failure e) = .error e ∧
    exec_cmd (.failure e) false true = .ok (.err e) ∧
    exec_cmd (.failure e) false false = .ok .noResult ∧
    exec_cmd (.success r) b c = .ok (.ret r) :=
  ⟨rfl, rfl, rfl, rfl⟩

/-! ## C2: the self-diff is empty -/

/-- **C2**: diffing a findings table's single-pin-state subset against
itself — the same subset written as both the left and the right table,
set-difference keyed on `(vuln_id, package)`, keeping the `left_only`
rows — always yields the empty table. -/
theorem diff_scans_self_empty (rows : List Row) (p : String) :
    diff_scans rows p p = [] := by
  unfold diff_scans csvdiff_left_only csvdiff
  have h : ∀ r ∈ rows.filter (fun r => r.pintype == p),
      keyMem r (rows.filter (fun r => r.pintype == p)) = true := by
    intro r hr
    exact List.any_eq_true.mpr ⟨r, hr, by simp⟩
  have h1 : (rows.filter (fun r => r.pintype == p)).filter
      (fun r => !keyMem r (rows.filter (fun r => r.pintype == p))) = [] := by
    refine List.filter_eq_nil_iff.mpr ?_
    intro a ha
    simp [h a ha]
  rw [h1]
  simp

/-! ## C5: reset restores the baseline; transitions never compound -/

/-- **C5**: the reset operation restores both managed files to
byte-identical content with their baseline backups, whatever mutations
were applied before; and since every pin-state transition of
`scan_target` resets before mutating, the three pre-scan file states
depend only on the backups — two checkouts with the same backups but
arbitrarily different mutated live files go through identical pre-scan
states, so mutations never compound. -/
theorem reset_restores_and_never_compounds (nixLock : String → String → String)
    (s s' : FlakeFiles) (hl : s.lockfile_bak = s'.lockfile_bak)
    (hf : s.flakefile_bak = s'.flakefile_bak) :
    (reset_lock s).lockfile = s.lockfile_bak ∧
    (reset_lock s).flakefile = s.flakefile_bak ∧
    scan_target_prestates nixLock s = scan_target_prestates nixLock s' := by
  refine ⟨rfl, rfl, ?_⟩
  simp only [scan_target_prestates, reset_lock, update_repo_lock, hl, hf]

/-- Witness for C5 at concrete contents: mutated live files, identical
backups. -/
theorem reset_restores_and_never_compounds_witness :
    (reset_lock ⟨"lock-mut", "flake-mut", "lock0", "flake0"⟩).lockfile = "lock0" ∧
    (reset_lock ⟨"lock-mut", "flake-mut", "lock0", "flake0"⟩).flakefile = "flake0" ∧
    scan_target_prestates (fun f l => f ++ l) ⟨"lock-mut", "flake-mut", "lock0", "flake0"⟩ =
      scan_target_prestates (fun f l => f ++ l) ⟨"other", "different", "lock0", "flake0"⟩ :=
  reset_restores_and_never_compounds (fun f l => f ++ l) _ _ rfl rfl

/-! ## C10: vuln id cells render empty without an id and a url -/

/-- **C10**: in a rendered findings table the vulnerability-identifier
cell of every row is `_reformat_vuln_id` of the row; it is the empty
string whenever the row's `vuln_id` or `url` field is empty, and it is
the markdown hyperlink exactly when both are non-empty. -/
theorem vuln_id_link_requires_url (fmt : Fmt) (cols : Cols) (up_ver : Bool)
    (r : Row) :
    (projectRow fmt cols up_ver r).head? = some (reformat_vuln_id r) ∧
    (r.vuln_id = "" ∨ r.url = "" → reformat_vuln_id r = "") ∧
    (r.vuln_id ≠ "" → r.url ≠ "" →
      reformat_vuln_id r = "[" ++ r.vuln_id ++ "](" ++ r.url ++ ")") := by
  refine ⟨rfl, ?_, ?_⟩
  · intro h
    unfold reformat_vuln_id
    rw [if_pos h]
  · intro h1 h2
    unfold reformat_vuln_id
    rw [if_neg (by tauto)]

/-- Witness for C10: a row with a url-less finding renders an empty
cell; `row1` with both fields renders the hyperlink. -/
theorem vuln_id_link_requires_url_witness :
    reformat_vuln_id { row1 with url := "" } = "" ∧
    reformat_vuln_id row1 = "[" ++ row1.vuln_id ++ "](" ++ row1.url ++ ")" :=
  ⟨(vuln_id_link_requires_url fmt0 cols1 true { row1 with url := "" }).2.1 (Or.inr rfl),
   (vuln_id_link_requires_url fmt0 cols1 true row1).2.2 (by decide) (by decide)⟩

/-! ## Membership in rendered tables (helpers for C3 and C9) -/

/-- Membership through `insertSorted`. -/
theorem mem_insertSorted (le : Row → Row → Bool) (x a : Row) :
    ∀ l : List Row, a ∈ insertSorted le x l ↔ a = x ∨ a ∈ l := by
  intro l
  induction l with
  | nil => simp [insertSorted]
  | cons y ys ih =>
    unfold insertSorted
    by_cases hle : le x y = true
    · rw [if_pos hle]
      simp
    · rw [if_neg hle]
      simp [ih]
      tauto

/-- Sorting preserves membership. -/
theorem mem_sortRows (a : Row) : ∀ rows : List Row, a ∈ sortRows rows ↔ a ∈ rows := by
  intro rows
  induction rows with
  | nil => simp [sortRows]
  | cons r rs ih =>
    show a ∈ insertSorted _ r (sortRows rs) ↔ _
    rw [mem_insertSorted]
    simp [ih]

/-- First-occurrence deduplication preserves membership (given enough
fuel). -/
theorem mem_dedupKeepFirstF (a : List String) :
    ∀ (n : Nat) (l : List (List String)), l.length ≤ n →
      (a ∈ dedupKeepFirstF n l ↔ a ∈ l) := by
  intro n
  induction n with
  | zero =>
    intro l hl
    have : l = [] := List.length_eq_zero.mp (Nat.le_zero.mp hl)
    subst this
    simp [dedupKeepFirstF]
  | succ n ih =>
    intro l hl
    match l with
    | [] => simp [dedupKeepFirstF]
    | x :: xs =>
      show a ∈ x :: dedupKeepFirstF n (xs.filter (fun y => !(y == x))) ↔ _
      have hlen : (xs.filter (fun y => !(y == x))).length ≤ n :=
        le_trans (List.length_filter_le _ _) (Nat.succ_le_succ_iff.mp hl)
      by_cases hax : a = x
      · subst hax
        simp
      · simp only [List.mem_cons, ih _ hlen, List.mem_filter]
        constructor
        · rintro (h | ⟨h, _⟩)
          · exact Or.inl h
          · exact Or.inr h
        · rintro (h | h)
          · exact Or.inl h
          · exact Or.inr ⟨h, by simp [hax]⟩

/-- Deduplication preserves membership. -/
theorem mem_dedupKeepFirst (a : List String) (l : List (List String)) :
    a ∈ dedupKeepFirst l ↔ a ∈ l :=
  mem_dedupKeepFirstF a l.length l le_rfl

/-- Every source row's projection appears among the rendered cell rows
of its table. -/
theorem mem_reportRows (fmt : Fmt) (cols : Cols) (up_ver : Bool)
    {rows : List Row} {r : Row} (h : r ∈ rows) :
    projectRow fmt cols up_ver r ∈ reportRows fmt cols up_ver rows := by
  unfold reportRows
  exact (mem_dedupKeepFirst _ _).mpr
    (List.mem_map_of_mem _ ((mem_sortRows r rows).mpr h))

/-! ## C3: whitelist-flagged findings are routed to the whitelisted-only
table -/

/-- **C3**: when the accumulator has a whitelist column, every row
feeding the main current-vulnerabilities table of a target report has
`whitelist = "False"`; hence a whitelist-flagged finding (value not
`"False"`) is never among them, while its projected cells do appear in
the rendered whitelisted-only table, which keeps exactly the flagged
rows of the whole accumulator. -/
theorem whitelist_flagged_row_routing (fmt : Fmt) (cols : Cols)
    (df_scan : List Row) (r : Row) (hw : cols.hasWhitelist = true)
    (hr : r ∈ df_scan) (hflag : r.whitelist ≠ "False") :
    (∀ q ∈ currentVulnsRows cols df_scan r.flakeref r.target, q.whitelist = "False") ∧
    r ∉ currentVulnsRows cols df_scan r.flakeref r.target ∧
    projectRow fmt cols false r ∈
      reportRows fmt cols false (df_scan.filter (fun q => !(q.whitelist == "False"))) := by
  have hall : ∀ q ∈ currentVulnsRows cols df_scan r.flakeref r.target,
      q.whitelist = "False" := by
    intro q hq
    unfold currentVulnsRows filterTargetRows at hq
    rw [hw] at hq
    simp only [if_true, List.mem_filter] at hq
    exact beq_iff_eq.mp hq.1.2
  refine ⟨hall, fun hmem => hflag (hall r hmem), ?_⟩
  exact mem_reportRows fmt cols false (List.mem_filter.mpr ⟨hr, by simp [hflag]⟩)

/-- Witness for C3: `row1` is flagged (`whitelist = "True"`) in a
one-row accumulator. -/
theorem whitelist_flagged_row_routing_witness :
    row1 ∉ currentVulnsRows cols1 [row1] row1.flakeref row1.target ∧
    projectRow fmt0 cols1 false row1 ∈
      reportRows fmt0 cols1 false ([row1].filter (fun q => !(q.whitelist == "False"))) :=
  ⟨(whitelist_flagged_row_routing fmt0 cols1 [row1] row1 rfl (by simp) (by decide)).2.1,
   (whitelist_flagged_row_routing fmt0 cols1 [row1] row1 rfl (by simp) (by decide)).2.2⟩

/-! ## C9: the whitelisted-only table is global -/

/-- **C9**: the whitelisted-only section is computed from the entire run
accumulator with no filtering by target, flakeref or pin state — two
reports for different targets render the identical section, and the
projected cells of every whitelist-flagged row of the accumulator,
whatever its target and pin state, appear in that shared table. -/
theorem whitelisted_section_global (fmt : Fmt) (cols : Cols) (errors : Errors)
    (df_scan : List Row) (ref? : Option (Cols × List Row))
    (fr1 t1 fr2 t2 : String) (r : Row) (_hw : cols.hasWhitelist = true)
    (hr : r ∈ df_scan) (hflag : r.whitelist ≠ "False") :
    (report_target fmt cols errors df_scan ref? fr1 t1).only_whitelisted =
      (report_target fmt cols errors df_scan ref? fr2 t2).only_whitelisted ∧
    projectRow fmt cols false r ∈
      reportRows fmt cols false (df_scan.filter (fun q => !(q.whitelist == "False"))) := by
  refine ⟨rfl, ?_⟩
  exact mem_reportRows fmt cols false (List.mem_filter.mpr ⟨hr, by simp [hflag]⟩)

/-- Witness for C9: `row1` was found on target `pkg.t1`, yet its cells
appear in the whitelisted table shared by the reports of two unrelated
targets. -/
theorem whitelisted_section_global_witness :
    (report_target fmt0 cols1 [] [row1] none "fr" "other.target").only_whitelisted =
      (report_target fmt0 cols1 [] [row1] none "fr2" "third.target").only_whitelisted ∧
    projectRow fmt0 cols1 false row1 ∈
      reportRows fmt0 cols1 false ([row1].filter (fun q => !(q.whitelist == "False"))) :=
  ⟨(whitelisted_section_global fmt0 cols1 [] [row1] none "fr" "other.target" "fr2"
      "third.target" row1 rfl (by simp) (by decide)).1,
   (whitelisted_section_global fmt0 cols1 [] [row1] none "fr" "other.target" "fr2"
      "third.target" row1 rfl (by simp) (by decide)).2⟩

/-! ## String shape of the recorded error messages (helpers for C7 and
C1) -/

/-- The character content of an error message. -/
theorem errMsg_data (t p : String) :
    (errMsg t p).data =
      "```Error evaluating '".data ++ t.data ++ "' on ".data ++ p.data ++
        "```<br /><br />\nFor more details, see: https://github.com/tiiuae/ghafscan/actions".data := by
  simp [errMsg, String.data_append]

/-- An error message is never the empty string, so Python's truthiness
test on it never falls through to the table. -/
theorem errMsg_ne_empty (t p : String) : errMsg t p ≠ "" := by
  intro h
  have hd := congrArg String.data h
  rw [errMsg_data] at hd
  have h1 : ("```Error evaluating '" : String).data =
      '`' :: "``Error evaluating '".data := rfl
  have h2 : ("" : String).data = [] := rfl
  rw [h1, h2] at hd
  simp at hd

/-- An error message is never the empty-table placeholder. -/
theorem errMsg_ne_noVuln (t p : String) :
    errMsg t p ≠ "```No vulnerabilities```" := by
  intro h
  have hd := congrArg String.data h
  rw [errMsg_data] at hd
  have h1 : ("```Error evaluating '" : String).data =
      '`' :: '`' :: '`' :: 'E' :: "rror evaluating '".data := rfl
  have h2 : ("```No vulnerabilities```" : String).data =
      '`' :: '`' :: '`' :: 'N' :: "o vulnerabilities```".data := rfl
  rw [h1, h2] at hd
  simp only [List.cons_append, List.cons.injEq] at hd
  exact absurd hd.2.2.2.1 (by decide)

/-- An error message is never a rendered non-empty findings table, which
always starts with a newline. -/
theorem errMsg_ne_table (t p s : String) : errMsg t p ≠ "\n" ++ s ++ "\n" := by
  intro h
  have hd := congrArg String.data h
  rw [errMsg_data] at hd
  have h1 : ("```Error evaluating '" : String).data =
      '`' :: "``Error evaluating '".data := rfl
  have h2 : ("\n" : String).data = ['\n'] := rfl
  rw [String.data_append, String.data_append, h1, h2] at hd
  simp only [List.cons_append, List.singleton_append, List.cons.injEq] at hd
  exact absurd hd.1 (by decide)

/-- The error-record key determines the pintype, for a fixed target. -/
theorem errKey_pintype_inj (t a b : String) (h : errKey t a = errKey t b) :
    a = b := by
  unfold errKey at h
  have hd := congrArg String.data h
  simp only [String.data_append] at hd
  have := List.append_cancel_left hd
  exact String.ext this

/-! ## C7: error records take precedence over tables (amended: a record
earlier in a section's lookup order shadows a later one) -/

/-- Looking up the just-inserted error key. -/
theorem lookup_cons_self (k v : String) (es : Errors) :
    List.lookup k ((k, v) :: es) = some v := by
  simp [List.lookup]

/-- Looking up past a non-matching key. -/
theorem lookup_cons_ne (k k' v : String) (es : Errors)
    (h : (k == k') = false) : List.lookup k ((k', v) :: es) = List.lookup k es := by
  simp [List.lookup, h]

/-- `_read_error` returns the first pintype's record when present. -/
theorem read_error_cons_hit (errors : Errors) (t p : String) (ps : List String)
    (m : String) (h : errors.lookup (errKey t p) = some m) :
    read_error errors t (p :: ps) = some m := by
  unfold read_error
  rw [h]

/-- `_read_error` skips a pintype without a record. -/
theorem read_error_cons_miss (errors : Errors) (t p : String) (ps : List String)
    (h : errors.lookup (errKey t p) = none) :
    read_error errors t (p :: ps) = read_error errors t ps := by
  conv_lhs => rw [read_error]
  rw [h]

/-- A found, non-empty error message is the whole section text. -/
theorem sectionText_some (errors : Errors) (t : String) (pts : List String)
    (tbl m : String) (h : read_error errors t pts = some m) (hm : m ≠ "") :
    sectionText errors t pts tbl = m := by
  unfold sectionText pyOr
  rw [h]
  show (if m = "" then tbl else m) = m
  exact if_neg hm

/-- `_read_error` skips every pintype without a record. -/
theorem read_error_skip_none (errors : Errors) (target : String) :
    ∀ (ps1 rest : List String),
      (∀ q ∈ ps1, errors.lookup (errKey target q) = none) →
      read_error errors target (ps1 ++ rest) = read_error errors target rest := by
  intro ps1
  induction ps1 with
  | nil => intro rest _; rfl
  | cons q qs ih =>
    intro rest hnone
    rw [List.cons_append,
      read_error_cons_miss _ _ _ _ (hnone q (List.mem_cons_self q qs)),
      ih rest (fun x hx => hnone x (List.mem_cons_of_mem q hx))]

/-- **C7 (amended)**: for every target/pin-state combination that has an
Error Record and is the first in its section's lookup order to have
one, the rendered section is exactly that record's message — which is
neither the empty-table placeholder nor any rendered findings table
(every non-empty one starts with a newline): errors take precedence
over empty-table rendering, but a record earlier in the lookup order
shadows a later one. -/
theorem error_record_first_hit (errors : Errors) (target : String)
    (ps1 ps2 : List String) (p : String) (tbl : String) (t' p' : String)
    (hnone : ∀ q ∈ ps1, errors.lookup (errKey target q) = none)
    (hp : errors.lookup (errKey target p) = some (errMsg t' p')) :
    sectionText errors target (ps1 ++ p :: ps2) tbl = errMsg t' p' ∧
    errMsg t' p' ≠ "```No vulnerabilities```" ∧
    ∀ s : String, errMsg t' p' ≠ "\n" ++ s ++ "\n" := by
  refine ⟨?_, errMsg_ne_noVuln t' p', fun s => errMsg_ne_table t' p' s⟩
  have h1 : read_error errors target (ps1 ++ p :: ps2) = some (errMsg t' p') := by
    rw [read_error_skip_none errors target ps1 _ hnone]
    exact read_error_cons_hit _ _ _ _ _ hp
  exact sectionText_some _ _ _ _ _ h1 (errMsg_ne_empty t' p')

/-- Witness for C7 at the FIXED_IN_NIX_UNSTABLE lookup order: a
`lock_updated` record with no record before it in the list replaces the
table. -/
theorem error_record_first_hit_witness :
    (∀ q ∈ (["current"] : List String),
      List.lookup (errKey "pkg.t1" q)
        [(errKey "pkg.t1" "lock_updated", errMsg "pkg.t1" "lock_updated")] = none) ∧
    sectionText [(errKey "pkg.t1" "lock_updated", errMsg "pkg.t1" "lock_updated")]
        "pkg.t1" (["current"] ++ "lock_updated" :: ["nix_unstable"])
        "```No vulnerabilities```" = errMsg "pkg.t1" "lock_updated" :=
  ⟨by decide,
   (error_record_first_hit
      [(errKey "pkg.t1" "lock_updated", errMsg "pkg.t1" "lock_updated")]
      "pkg.t1" ["current"] ["nix_unstable"] "lock_updated"
      "```No vulnerabilities```" "pkg.t1" "lock_updated" (by decide) (by decide)).1⟩

/-- **C7 counterexample**: in the run where evaluation fails for the
same target on both `lock_updated` and `nix_unstable`, the combination
(`tgt`, `nix_unstable`) has an Error Record, yet the section consulted
for it (FIXED_IN_NIX_UNSTABLE, lookup order `lock_updated` then
`nix_unstable`) renders the `lock_updated` record's message and not
this combination's — so the claim is false as universally stated for
every combination that has a record. -/
theorem error_record_shadowed_cex :
    cexState.errors.lookup (errKey "tgt" "nix_unstable") =
      some (errMsg "tgt" "nix_unstable") ∧
    cexReport.fixed_in_nix_unstable = errMsg "tgt" "lock_updated" ∧
    cexReport.fixed_in_nix_unstable ≠ errMsg "tgt" "nix_unstable" := by
  decide

/-! ## C1: resolution failure contributes no rows and surfaces as an
error block (amended) -/

/-- The CURRENT_VULNS section of a rendered report. -/
theorem report_current_vulns_section (fmt : Fmt) (cols : Cols) (errors : Errors)
    (df_scan : List Row) (ref? : Option (Cols × List Row)) (fr t : String) :
    (report_target fmt cols errors df_scan ref? fr t).current_vulns =
      sectionText errors t ["current"]
        (df_to_report_tbl fmt cols true (currentVulnsRows cols df_scan fr t)) := rfl

/-- The FIXED_IN_NIX_UNSTABLE section of a rendered report. -/
theorem report_fixed_unstable_section (fmt : Fmt) (cols : Cols) (errors : Errors)
    (df_scan : List Row) (ref? : Option (Cols × List Row)) (fr t : String) :
    (report_target fmt cols errors df_scan ref? fr t).fixed_in_nix_unstable =
      sectionText errors t ["lock_updated", "nix_unstable"]
        (df_to_report_tbl fmt cols true
          (diff_scans (filterTargetRows cols df_scan fr t) "lock_updated" "nix_unstable")) := rfl

/-- **C1 (amended)**: if resolving the target fails for a pin state, no
rows are appended — the accumulator is unchanged — and an error record
keyed `{target}_{pintype}` with the markdown message is recorded.  The
rendered report for the target then shows the message in place of the
corresponding table: unconditionally for the `current` and
`lock_updated` pin states, and for `nix_unstable` provided no error
record exists for `lock_updated`, which precedes it in that section's
lookup order and would shadow it. -/
theorem eval_failure_recorded (fmt : Fmt) (cols : Cols)
    (ref? : Option (Cols × List Row)) (fr t p : String) (s : ScanState) :
    (read_scan_results .evalFail fr t p s).df_scan = s.df_scan ∧
    (read_scan_results .evalFail fr t p s).errors.lookup (errKey t p) =
      some (errMsg t p) ∧
    (p = "current" →
      (report_target fmt cols (read_scan_results .evalFail fr t p s).errors
          (read_scan_results .evalFail fr t p s).df_scan ref? fr t).current_vulns =
        errMsg t p) ∧
    (p = "lock_updated" →
      (report_target fmt cols (read_scan_results .evalFail fr t p s).errors
          (read_scan_results .evalFail fr t p s).df_scan ref? fr t).fixed_in_nix_unstable =
        errMsg t p) ∧
    (p = "nix_unstable" → s.errors.lookup (errKey t "lock_updated") = none →
      (report_target fmt cols (read_scan_results .evalFail fr t p s).errors
          (read_scan_results .evalFail fr t p s).df_scan ref? fr t).fixed_in_nix_unstable =
        errMsg t p) := by
  refine ⟨rfl, ?_, ?_, ?_, ?_⟩
  · exact lookup_cons_self _ _ _
  · intro hp
    subst hp
    rw [report_current_vulns_section]
    simp only [read_scan_results]
    exact sectionText_some _ _ _ _ _
      (read_error_cons_hit _ _ _ _ _ (lookup_cons_self _ _ _))
      (errMsg_ne_empty t "current")
  · intro hp
    subst hp
    rw [report_fixed_unstable_section]
    simp only [read_scan_results]
    exact sectionText_some _ _ _ _ _
      (read_error_cons_hit _ _ _ _ _ (lookup_cons_self _ _ _))
      (errMsg_ne_empty t "lock_updated")
  · intro hp hnone
    subst hp
    rw [report_fixed_unstable_section]
    simp only [read_scan_results]
    have hbeq : (errKey t "lock_updated" == errKey t "nix_unstable") = false := by
      refine beq_eq_false_iff_ne.mpr fun h => ?_
      have := errKey_pintype_inj t _ _ h
      exact absurd this (by decide)
    have h1 : List.lookup (errKey t "lock_updated")
        ((errKey t "nix_unstable", errMsg t "nix_unstable") :: s.errors) = none := by
      rw [lookup_cons_ne _ _ _ _ hbeq, hnone]
    refine sectionText_some _ _ _ _ _ ?_ (errMsg_ne_empty t "nix_unstable")
    rw [read_error_cons_miss _ _ _ _ h1]
    exact read_error_cons_hit _ _ _ _ _ (lookup_cons_self _ _ _)

/-- Witness for C1 at a concrete failing evaluation on `current`. -/
theorem eval_failure_recorded_witness :
    (read_scan_results .evalFail "fr" "pkg.t1" "current" ⟨[], []⟩).df_scan = [] ∧
    (read_scan_results .evalFail "fr" "pkg.t1" "current" ⟨[], []⟩).errors.lookup
      (errKey "pkg.t1" "current") = some (errMsg "pkg.t1" "current") ∧
    (report_target fmt0 cols0
        (read_scan_results .evalFail "fr" "pkg.t1" "current" ⟨[], []⟩).errors
        (read_scan_results .evalFail "fr" "pkg.t1" "current" ⟨[], []⟩).df_scan
        none "fr" "pkg.t1").current_vulns = errMsg "pkg.t1" "current" :=
  ⟨(eval_failure_recorded fmt0 cols0 none "fr" "pkg.t1" "current" ⟨[], []⟩).1,
   (eval_failure_recorded fmt0 cols0 none "fr" "pkg.t1" "current" ⟨[], []⟩).2.1,
   (eval_failure_recorded fmt0 cols0 none "fr" "pkg.t1" "current" ⟨[], []⟩).2.2.1 rfl⟩

/-- **C1 counterexample**: when evaluation fails for the same target on
both `lock_updated` and `nix_unstable`, the `nix_unstable` error record
is recorded, yet its message appears in no section of the rendered
report — the `lock_updated` record precedes it in the
FIXED_IN_NIX_UNSTABLE lookup order and shadows it — refuting the claim
as universally stated. -/
theorem eval_failure_shadowed_cex :
    cexState.errors.lookup (errKey "tgt" "nix_unstable") =
      some (errMsg "tgt" "nix_unstable") ∧
    cexReport.fixed_in_nixpkgs ≠ errMsg "tgt" "nix_unstable" ∧
    cexReport.fixed_in_nix_unstable ≠ errMsg "tgt" "nix_unstable" ∧
    cexReport.new_since_last_run ≠ errMsg "tgt" "nix_unstable" ∧
    cexReport.current_vulns ≠ errMsg "tgt" "nix_unstable" ∧
    cexReport.only_whitelisted ≠ errMsg "tgt" "nix_unstable" ∧
    hasSub (errMsg "tgt" "nix_unstable").data cexReport.fixed_in_nixpkgs.data = false ∧
    hasSub (errMsg "tgt" "nix_unstable").data cexReport.fixed_in_nix_unstable.data = false ∧
    hasSub (errMsg "tgt" "nix_unstable").data cexReport.new_since_last_run.data = false ∧
    hasSub (errMsg "tgt" "nix_unstable").data cexReport.current_vulns.data = false ∧
    hasSub (errMsg "tgt" "nix_unstable").data cexReport.only_whitelisted.data = false := by
  decide

/-! ## C4: the tabular store round-trips -/

/-- Unfolding: an escaped quote continues the field. -/
theorem parseQuoted_quote_quote (acc rest2 : List Char) :
    parseQuoted acc ('"' :: '"' :: rest2) = parseQuoted (acc ++ ['"']) rest2 := rfl

/-- Unfolding: a quote at the end of input closes the field. -/
theorem parseQuoted_quote_nil (acc : List Char) :
    parseQuoted acc ['"'] = some (acc, []) := rfl

/-- Unfolding: a quote followed by a non-quote closes the field. -/
theorem parseQuoted_quote_other (acc rest2 : List Char) (c2 : Char) (h : c2 ≠ '"') :
    parseQuoted acc ('"' :: c2 :: rest2) = some (acc, c2 :: rest2) := by
  simp [parseQuoted, h]

/-- Unfolding: an ordinary character extends the field. -/
theorem parseQuoted_other (acc rest : List Char) (c : Char) (h : c ≠ '"') :
    parseQuoted acc (c :: rest) = parseQuoted (acc ++ [c]) rest := by
  conv_lhs => rw [parseQuoted.eq_def]
  simp only [if_neg h]

/-- A successful quoted-field parse consumes at least the closing
quote. -/
theorem parseQuoted_length :
    ∀ (n : Nat) (l : List Char), l.length ≤ n →
      ∀ acc f rest, parseQuoted acc l = some (f, rest) → rest.length < l.length := by
  intro n
  induction n with
  | zero =>
    intro l hl acc f rest h
    have : l = [] := List.length_eq_zero.mp (Nat.le_zero.mp hl)
    subst this
    simp [parseQuoted] at h
  | succ n ih =>
    intro l hl acc f rest h
    match l with
    | [] => simp [parseQuoted] at h
    | c :: cs =>
      by_cases hc : c = '"'
      · subst hc
        match cs with
        | [] =>
          rw [parseQuoted_quote_nil] at h
          simp only [Option.some.injEq, Prod.mk.injEq] at h
          rw [← h.2]
          simp
        | c2 :: cs2 =>
          by_cases hc2 : c2 = '"'
          · subst hc2
            rw [parseQuoted_quote_quote] at h
            have hlen : cs2.length ≤ n := by
              simp only [List.length_cons] at hl
              omega
            have := ih cs2 hlen _ _ _ h
            simp only [List.length_cons]
            omega
          · rw [parseQuoted_quote_other _ _ _ hc2] at h
            simp only [Option.some.injEq, Prod.mk.injEq] at h
            rw [← h.2]
            simp only [List.length_cons]
            omega
      · rw [parseQuoted_other _ _ _ hc] at h
        have hlen : cs.length ≤ n := by
          simp only [List.length_cons] at hl
          omega
        have := ih cs hlen _ _ _ h
        simp only [List.length_cons]
        omega

/-- Parsing the escaped form of a field recovers the field and stops at
the closing quote, for any continuation not starting with a quote. -/
theorem parseQuoted_escape (tail : List Char)
    (htail : ∀ c cs, tail = c :: cs → c ≠ '"') :
    ∀ (f acc : List Char),
      parseQuoted acc (escapeField f ++ '"' :: tail) = some (acc ++ f, tail) := by
  intro f
  induction f with
  | nil =>
    intro acc
    show parseQuoted acc ('"' :: tail) = some (acc ++ [], tail)
    match tail, htail with
    | [], _ =>
      rw [parseQuoted_quote_nil]
      simp
    | c2 :: cs2, htail =>
      rw [parseQuoted_quote_other _ _ _ (htail c2 cs2 rfl)]
      simp
  | cons c f ih =>
    intro acc
    by_cases hc : c = '"'
    · subst hc
      have he : escapeField ('"' :: f) ++ '"' :: tail =
          '"' :: '"' :: (escapeField f ++ '"' :: tail) := by
        simp [escapeField]
      rw [he, parseQuoted_quote_quote, ih (acc ++ ['"'])]
      simp
    · have he : escapeField (c :: f) ++ '"' :: tail =
          c :: (escapeField f ++ '"' :: tail) := by
        simp [escapeField, hc]
      rw [he, parseQuoted_other _ _ _ hc, ih (acc ++ [c])]
      simp

/-- Unfolding: the record parser on a non-field head fails. -/
theorem parseRecsF_quote_none (fuel : Nat) (r : List Char)
    (hq : parseQuoted [] r = none) :
    parseRecsF (fuel + 1) ('"' :: r) = none := by
  simp [parseRecsF, hq]

/-- Unfolding: a field ending the input yields the final one-field
record. -/
theorem parseRecsF_quote_done (fuel : Nat) (r f : List Char)
    (hq : parseQuoted [] r = some (f, [])) :
    parseRecsF (fuel + 1) ('"' :: r) = some [[f]] := by
  simp [parseRecsF, hq]

/-- Unfolding: a comma after a field continues the current record. -/
theorem parseRecsF_quote_comma (fuel : Nat) (r f r2 : List Char)
    (hq : parseQuoted [] r = some (f, ',' :: r2)) :
    parseRecsF (fuel + 1) ('"' :: r) =
      match parseRecsF fuel r2 with
      | some (rec1 :: recs) => some ((f :: rec1) :: recs)
      | _ => none := by
  simp [parseRecsF, hq]

/-- Unfolding: a trailing newline after a field ends the file. -/
theorem parseRecsF_quote_newline_nil (fuel : Nat) (r f : List Char)
    (hq : parseQuoted [] r = some (f, ['\n'])) :
    parseRecsF (fuel + 1) ('"' :: r) = some [[f]] := by
  simp only [parseRecsF, hq, if_true]
  rw [if_neg (by decide : ¬ ('\n' : Char) = ',')]

/-- Unfolding: a newline followed by more input starts the next
record. -/
theorem parseRecsF_quote_newline_cons (fuel : Nat) (r f : List Char) (d : Char)
    (r3 : List Char) (hq : parseQuoted [] r = some (f, '\n' :: d :: r3)) :
    parseRecsF (fuel + 1) ('"' :: r) =
      match parseRecsF fuel (d :: r3) with
      | some recs => some ([f] :: recs)
      | none => none := by
  simp only [parseRecsF, hq, if_true]
  rw [if_neg (by decide : ¬ ('\n' : Char) = ',')]

/-- The record parser is fuel-irrelevant above the input length. -/
theorem parseRecsF_congr :
    ∀ (n f1 f2 : Nat) (input : List Char), input.length ≤ n →
      input.length < f1 → input.length < f2 →
      parseRecsF f1 input = parseRecsF f2 input := by
  intro n
  induction n with
  | zero =>
    intro f1 f2 input hn h1 h2
    have : input = [] := List.length_eq_zero.mp (Nat.le_zero.mp hn)
    subst this
    obtain ⟨fu1, rfl⟩ : ∃ k, f1 = k + 1 := ⟨f1 - 1, by omega⟩
    obtain ⟨fu2, rfl⟩ : ∃ k, f2 = k + 1 := ⟨f2 - 1, by omega⟩
    rfl
  | succ n ih =>
    intro f1 f2 input hn h1 h2
    obtain ⟨fu1, rfl⟩ : ∃ k, f1 = k + 1 := ⟨f1 - 1, by omega⟩
    obtain ⟨fu2, rfl⟩ : ∃ k, f2 = k + 1 := ⟨f2 - 1, by omega⟩
    match input with
    | [] => rfl
    | c :: r =>
      have hrn : r.length ≤ n := by
        simp only [List.length_cons] at hn
        omega
      have hrf1 : r.length < fu1 + 1 := by
        simp only [List.length_cons] at h1
        omega
      have hrf2 : r.length < fu2 + 1 := by
        simp only [List.length_cons] at h2
        omega
      by_cases hc : c = '"'
      case neg => simp only [parseRecsF, if_neg hc]
      case pos =>
        subst hc
        match hq : parseQuoted [] r with
        | none =>
          rw [parseRecsF_quote_none fu1 r hq, parseRecsF_quote_none fu2 r hq]
        | some (f, rest) =>
          have hrest := parseQuoted_length r.length r le_rfl _ _ _ hq
          match rest, hrest with
          | [], _ =>
            rw [parseRecsF_quote_done fu1 r f hq, parseRecsF_quote_done fu2 r f hq]
          | c2 :: r2, hrest =>
            have hb : r2.length + 1 < r.length := by
              simp only [List.length_cons] at hrest
              omega
            have hrec : parseRecsF fu1 r2 = parseRecsF fu2 r2 :=
              ih fu1 fu2 r2 (by omega) (by omega) (by omega)
            by_cases hc2 : c2 = ','
            · subst hc2
              rw [parseRecsF_quote_comma fu1 r f r2 hq,
                parseRecsF_quote_comma fu2 r f r2 hq, hrec]
            · by_cases hc3 : c2 = '\n'
              · subst hc3
                match r2, hrec, hb with
                | [], _, _ =>
                  rw [parseRecsF_quote_newline_nil fu1 r f hq,
                    parseRecsF_quote_newline_nil fu2 r f hq]
                | d :: r3, hrec, _ =>
                  rw [parseRecsF_quote_newline_cons fu1 r f d r3 hq,
                    parseRecsF_quote_newline_cons fu2 r f d r3 hq, hrec]
              · simp only [parseRecsF, hq, if_true]
                rw [if_neg hc2, if_neg hc3]
                rw [if_neg hc2, if_neg hc3]

/-- Parsing the written form of the last record of a file. -/
theorem parse_writeRecord_last :
    ∀ (rec : List (List Char)), rec ≠ [] →
      ∀ fuel : Nat, (writeRecord rec ++ ['\n']).length < fuel →
        parseRecsF fuel (writeRecord rec ++ ['\n']) = some [rec] := by
  intro rec
  induction rec with
  | nil => intro h; exact absurd rfl h
  | cons f fs ih =>
    intro _ fuel hfuel
    obtain ⟨fu, rfl⟩ : ∃ k, fuel = k + 1 := ⟨fuel - 1, by omega⟩
    match fs with
    | [] =>
      show parseRecsF (fu + 1) (writeField f ++ ['\n']) = _
      have he : writeField f ++ ['\n'] = '"' :: (escapeField f ++ '"' :: ['\n']) := by
        simp [writeField]
      have hq : parseQuoted [] (escapeField f ++ '"' :: ['\n']) = some (f, ['\n']) := by
        have := parseQuoted_escape ['\n'] (by intro c cs hc; cases hc; decide) f []
        simpa using this
      rw [he]
      exact parseRecsF_quote_newline_nil fu _ f hq
    | g :: gs =>
      show parseRecsF (fu + 1)
          ((writeField f ++ ',' :: writeRecord (g :: gs)) ++ ['\n']) = _
      have he : (writeField f ++ ',' :: writeRecord (g :: gs)) ++ ['\n'] =
          '"' :: (escapeField f ++ '"' :: (',' :: (writeRecord (g :: gs) ++ ['\n']))) := by
        simp [writeField]
      have hq : parseQuoted [] (escapeField f ++ '"' :: (',' :: (writeRecord (g :: gs) ++ ['\n']))) =
          some (f, ',' :: (writeRecord (g :: gs) ++ ['\n'])) := by
        have := parseQuoted_escape (',' :: (writeRecord (g :: gs) ++ ['\n']))
          (by intro c cs hc; cases hc; decide) f []
        simpa using this
      rw [he, parseRecsF_quote_comma fu _ f _ hq]
      have hlen : (writeRecord (g :: gs) ++ ['\n']).length < fu := by
        have h2 := hfuel
        simp only [writeRecord, writeField, List.length_append, List.length_cons] at h2 ⊢
        omega
      rw [ih (by simp) fu hlen]

/-- Parsing the written form of a non-last record, given the parse of
the remaining file. -/
theorem parse_writeRecord_cons :
    ∀ (rec : List (List Char)), rec ≠ [] →
      ∀ (k : List Char) (recs : List (List (List Char))) (fuel : Nat),
        k ≠ [] → parseRecs k = some recs →
        (writeRecord rec ++ '\n' :: k).length < fuel →
        parseRecsF fuel (writeRecord rec ++ '\n' :: k) = some (rec :: recs) := by
  intro rec
  induction rec with
  | nil => intro h; exact absurd rfl h
  | cons f fs ih =>
    intro _ k recs fuel hk hparse hfuel
    obtain ⟨fu, rfl⟩ : ∃ n, fuel = n + 1 := ⟨fuel - 1, by omega⟩
    match fs with
    | [] =>
      show parseRecsF (fu + 1) (writeField f ++ '\n' :: k) = _
      match k, hk with
      | d :: k1, _ =>
        have he : writeField f ++ '\n' :: (d :: k1) =
            '"' :: (escapeField f ++ '"' :: ('\n' :: d :: k1)) := by
          simp [writeField]
        have hq : parseQuoted [] (escapeField f ++ '"' :: ('\n' :: d :: k1)) =
            some (f, '\n' :: d :: k1) := by
          have := parseQuoted_escape ('\n' :: d :: k1)
            (by intro c cs hc; cases hc; decide) f []
          simpa using this
        rw [he, parseRecsF_quote_newline_cons fu _ f d k1 hq]
        have hlen : (d :: k1).length < fu := by
          have h2 := hfuel
          simp only [writeField, List.length_append, List.length_cons] at h2 ⊢
          omega
        have hp2 : parseRecsF fu (d :: k1) = some recs := by
          rw [parseRecsF_congr (d :: k1).length fu ((d :: k1).length + 1) (d :: k1)
            le_rfl hlen (by omega)]
          exact hparse
        rw [hp2]
    | g :: gs =>
      show parseRecsF (fu + 1)
          ((writeField f ++ ',' :: writeRecord (g :: gs)) ++ '\n' :: k) = _
      have he : (writeField f ++ ',' :: writeRecord (g :: gs)) ++ '\n' :: k =
          '"' :: (escapeField f ++ '"' :: (',' :: (writeRecord (g :: gs) ++ '\n' :: k))) := by
        simp [writeField]
      have hq : parseQuoted []
          (escapeField f ++ '"' :: (',' :: (writeRecord (g :: gs) ++ '\n' :: k))) =
          some (f, ',' :: (writeRecord (g :: gs) ++ '\n' :: k)) := by
        have := parseQuoted_escape (',' :: (writeRecord (g :: gs) ++ '\n' :: k))
          (by intro c cs hc; cases hc; decide) f []
        simpa using this
      rw [he, parseRecsF_quote_comma fu _ f _ hq]
      have hlen : (writeRecord (g :: gs) ++ '\n' :: k).length < fu := by
        have h2 := hfuel
        simp only [writeRecord, writeField, List.length_append, List.length_cons] at h2 ⊢
        omega
      rw [ih (by simp) k recs fu hk hparse hlen]

/-- The written form of a non-empty file is non-empty. -/
theorem writeCSV_ne_nil (x : List (List Char)) (xs : List (List (List Char))) :
    writeCSV (x :: xs) ≠ [] := by
  show writeRecord x ++ '\n' :: writeCSV xs ≠ []
  intro h
  exact absurd (List.append_eq_nil.mp h).2 (by simp)

/-- Parsing back a written record list recovers it exactly, when every
record has at least one field. -/
theorem parse_writeCSV :
    ∀ rows : List (List (List Char)), rows ≠ [] → (∀ r ∈ rows, r ≠ []) →
      parseRecs (writeCSV rows) = some rows := by
  intro rows
  induction rows with
  | nil => intro h; exact absurd rfl h
  | cons r rs ih =>
    intro _ hne
    match rs with
    | [] =>
      show parseRecs (writeRecord r ++ '\n' :: writeCSV []) = _
      unfold parseRecs
      exact parse_writeRecord_last r (hne r (by simp)) _
        (by simp only [writeCSV]; omega)
    | s :: ss =>
      show parseRecs (writeRecord r ++ '\n' :: writeCSV (s :: ss)) = _
      unfold parseRecs
      refine parse_writeRecord_cons r (hne r (by simp)) (writeCSV (s :: ss)) (s :: ss) _
        (writeCSV_ne_nil s ss) ?_ (by omega)
      exact ih (by simp) (fun q hq => hne q (by simp [hq]))

/-- **C4**: writing a well-formed non-empty table to storage with all
fields quoted and reading it back yields exactly the original header
and rows, with every value kept as text — empty fields come back as
empty strings, not null markers. -/
theorem csv_round_trip (t : CsvTable) (h : csvWellFormed t) :
    df_from_csv_file (df_to_csv_file t) = some t := by
  obtain ⟨hh, hr⟩ := h
  have hne : ∀ r ∈ t.header :: t.rows, r ≠ [] := by
    intro r hmem
    rcases List.mem_cons.mp hmem with h1 | h1
    · rw [h1]; exact hh
    · intro hnil
      apply hh
      have h2 := hr r h1
      rw [hnil] at h2
      exact List.length_eq_zero.mp h2.symm
  have hp := parse_writeCSV (t.header :: t.rows) (by simp) hne
  unfold df_from_csv_file df_to_csv_file
  rw [hp]

/-- Witness for C4: a concrete two-column table with an embedded quote,
an embedded comma and an empty cell round-trips unchanged. -/
theorem csv_round_trip_witness :
    csvWellFormed ⟨["vuln_id".data, "package".data],
      [["CVE-1".data, "li\"b,c".data], [[], "x".data]]⟩ ∧
    df_from_csv_file (df_to_csv_file ⟨["vuln_id".data, "package".data],
      [["CVE-1".data, "li\"b,c".data], [[], "x".data]]⟩) =
      some ⟨["vuln_id".data, "package".data],
        [["CVE-1".data, "li\"b,c".data], [[], "x".data]]⟩ :=
  ⟨by decide, csv_round_trip _ (by decide)⟩

/-! ## C6: the channel rewrite (helpers) -/

